import Mathlib

/-!
Shallow embedding of the mesh-building core of
`src/backend/face_avatar/avatar/builder.py` over exact rationals.

Conventions of the embedding:
* numpy float arrays become `List` of `ℚ`-tuples; float literals such as
  `1e-9` become the exact rational `1 / 1000000000`;
* the landmark provider (MediaPipe), the Delaunay triangulator (scipy) and
  the static topology tables (`FACEMESH_*`) are external collaborators and
  are passed in as parameters of `build_mesh_from_photo`;
* Python's `set` + `sorted(list(s))` is modelled as `dedup` followed by
  `insertionSort`, and `np.sort` / `np.argsort`-by-angle as `insertionSort`
  by the exact angular order (any sorting algorithm yields the same sorted
  value sequence for a total antisymmetric order, and the same
  angular-sorted property otherwise);
* `raise RuntimeError` for a missing face becomes `Except.error`.
-/

/-- A 2D point (x, y) with rational coordinates. -/
abbrev Point2 := ℚ × ℚ

/-- A 3D point (x, y, z) with rational coordinates. -/
abbrev Point3 := ℚ × ℚ × ℚ

/-- A triangle of vertex indices into the landmark list
(one row of `tri.simplices`). -/
abbrev Tri := ℕ × ℕ × ℕ

/-- The division-by-zero guard `1e-9` appearing in `_inside_polygon`. -/
def epsQ : ℚ := 1 / 1000000000

/-- The loop-body condition of `_inside_polygon` for one polygon edge
`e = ((x1, y1), (x2, y2))` and query point `pt = (x, y)`:
`((y1 > y) != (y2 > y)) and (x < (x2 - x1) * (y - y1) / (y2 - y1 + 1e-9) + x1)`. -/
def edgeToggle (pt : Point2) (e : Point2 × Point2) : Bool :=
  (decide (e.1.2 > pt.2) != decide (e.2.2 > pt.2)) &&
    decide (pt.1 < (e.2.1 - e.1.1) * (pt.2 - e.1.2) / (e.2.2 - e.1.2 + epsQ) + e.1.1)

/-- The edge inspected at loop index `i` of `_inside_polygon`:
`poly_xy[i]` paired with `poly_xy[(i + 1) % n]`. -/
def edgeOf (poly : List Point2) (i : ℕ) : Point2 × Point2 :=
  (poly.getD i (0, 0), poly.getD ((i + 1) % poly.length) (0, 0))

/-- `_inside_polygon(pt, poly_xy)`: ray-casting point-in-polygon test.
Iterates `i` over `range(n)` and flips `inside` whenever the edge
condition holds. -/
def inside_polygon (pt : Point2) (poly : List Point2) : Bool :=
  (List.range poly.length).foldl
    (fun inside i => if edgeToggle pt (edgeOf poly i) then !inside else inside) false

/-- The multiset of endpoint indices referenced by a connection table:
the loop `for i, j in connections: verts.add(i); verts.add(j)` collects
exactly these values into the Python `set`. -/
def endpoints (conns : List (ℕ × ℕ)) : List ℕ :=
  conns.foldr (fun p l => p.1 :: p.2 :: l) []

/-- `_polygon_from_connections(connections)`: the sorted list of the set of
endpoint indices (`sorted(list(verts))`). -/
def polygon_from_connections (conns : List (ℕ × ℕ)) : List ℕ :=
  List.insertionSort (· ≤ ·) (endpoints conns).dedup

/-- `_verts_from_conns(conns)` inside `build_mesh_from_photo`: identical
set-collection followed by `sorted(list(s))`. -/
def verts_from_conns (conns : List (ℕ × ℕ)) : List ℕ :=
  List.insertionSort (· ≤ ·) (endpoints conns).dedup

/-- `oval_xy.mean(axis=0)`: componentwise arithmetic mean of a point list. -/
def centroid2 (l : List Point2) : Point2 :=
  ((l.map Prod.fst).sum / l.length, (l.map Prod.snd).sum / l.length)

/-- Cross product `p.x * q.y - p.y * q.x` of two 2D vectors; its sign
decides the angular order of `p` and `q` within an open half-plane. -/
def crossQ (p q : Point2) : ℚ := p.1 * q.2 - p.2 * q.1

/-- Which band of `atan2` values a vector falls in: `atan2` maps the lower
open half-plane to `(-π, 0)` (band 0), the nonnegative x-axis (origin
included) to `0` (band 1), the upper open half-plane to `(0, π)` (band 2)
and the negative x-axis to `π` (band 3). -/
def angBand (p : Point2) : ℕ :=
  if p.2 < 0 then 0
  else if p.2 = 0 ∧ 0 ≤ p.1 then 1
  else if 0 < p.2 then 2
  else 3

/-- Exact comparison `atan2(p - c) ≤ atan2(q - c)` of polar angles around a
center `c`, decided without transcendental functions: compare `atan2`
bands first, then the cross-product sign within a common band. -/
def angleLE (c p q : Point2) : Prop :=
  angBand (p.1 - c.1, p.2 - c.2) < angBand (q.1 - c.1, q.2 - c.2) ∨
    (angBand (p.1 - c.1, p.2 - c.2) = angBand (q.1 - c.1, q.2 - c.2) ∧
      0 ≤ crossQ (p.1 - c.1, p.2 - c.2) (q.1 - c.1, q.2 - c.2))

instance (c : Point2) : DecidableRel (angleLE c) := fun p q => by
  unfold angleLE; infer_instance

/-- The boundary-polygon construction in `build_mesh_from_photo`:
`oval_indices = _polygon_from_connections(FACEMESH_FACE_OVAL)`,
`oval_xy = points2d[oval_indices]`, then sort `oval_xy` by polar angle
(`np.arctan2`) around `center = oval_xy.mean(axis=0)`. -/
def boundary_polygon (points2d : List Point2) (conns : List (ℕ × ℕ)) : List Point2 :=
  let oval_xy := (polygon_from_connections conns).map (fun i => points2d.getD i (0, 0))
  List.insertionSort (angleLE (centroid2 oval_xy)) oval_xy

/-- Centroid of one triangle row: `points2d[faces].mean(axis=1)`. -/
def tri_centroid (points2d : List Point2) (t : Tri) : Point2 :=
  (((points2d.getD t.1 (0, 0)).1 + (points2d.getD t.2.1 (0, 0)).1
      + (points2d.getD t.2.2 (0, 0)).1) / 3,
   ((points2d.getD t.1 (0, 0)).2 + (points2d.getD t.2.1 (0, 0)).2
      + (points2d.getD t.2.2 (0, 0)).2) / 3)

/-- The triangle culling step `faces = faces[mask_inside]` with
`mask_inside = [_inside_polygon(c, oval_xy_sorted) for c in centroids]`. -/
def region_filter (points2d : List Point2) (faces : List Tri) (poly : List Point2) :
    List Tri :=
  faces.filter (fun t => inside_polygon (tri_centroid points2d t) poly)

/-- `np.median`: sort the values; the middle element for odd length, the
mean of the two middle elements for even length. -/
def medianQ (l : List ℚ) : ℚ :=
  let s := List.insertionSort (· ≤ ·) l
  if l.length % 2 = 1 then s.getD (l.length / 2) 0
  else (s.getD (l.length / 2 - 1) 0 + s.getD (l.length / 2) 0) / 2

/-- The normalization block of `build_mesh_from_photo`: flip Y
(`verts[:, 1] = h - verts[:, 1]`), subtract
`center3 = [w / 2, h / 2, median(z)]`, divide by `scale = max(w, h) / 2`. -/
def normalize_vertices (xyz : List Point3) (w h : ℚ) : List Point3 :=
  let flipped := xyz.map (fun p => (p.1, h - p.2.1, p.2.2))
  let m := medianQ (flipped.map (fun p => p.2.2))
  let centered := flipped.map (fun p => (p.1 - w / 2, p.2.1 - h / 2, p.2.2 - m))
  let scale := max w h / 2
  centered.map (fun p => (p.1 / scale, p.2.1 / scale, p.2.2 / scale))

/-- The UV block: `uv = np.stack([x / w, y / h])` then
`uv[:, 1] = 1.0 - uv[:, 1]`. -/
def uv_map (xyz : List Point3) (w h : ℚ) : List Point2 :=
  let uv0 := xyz.map (fun p => (p.1 / w, p.2.1 / h))
  uv0.map (fun q => (q.1, 1 - q.2))

/-- `points2d = xyz[:, :2]`. -/
def projectXY (xyz : List Point3) : List Point2 :=
  xyz.map (fun p => (p.1, p.2.1))

/-- The dictionary returned by `build_mesh_from_photo` (the `trimesh`
object itself is a wrapped external library value; its geometric content
is the vertex, face and uv data recorded here). -/
structure MeshResult where
  base_vertices : List Point3
  faces : List Tri
  uv : List Point2
  lips : List ℕ
  left_eye : List ℕ
  right_eye : List ℕ

/-- Failure cases of the pipeline; the code raises a single
`RuntimeError("No face landmarks detected. ...")` for a missing face. -/
inductive BuildError where
  | noFaceDetected

/-- `build_mesh_from_photo(photo_path)`. The photo decoding, landmark
detection and Delaunay triangulation are external calls; they enter here
as the provider result `landmarks` (`None` becomes `none`), the image
dimensions `w`, `h`, the triangulator `delaunay` and the four topology
tables. The body follows the source line by line: fail on missing
landmarks, project to 2D, triangulate, build the angular-sorted boundary
polygon from the face-oval table, cull triangles whose centroid falls
outside it, normalize vertices, derive UVs, and resolve the three feature
tables to sorted unique index lists. -/
def build_mesh_from_photo (landmarks : Option (List Point3)) (w h : ℚ)
    (delaunay : List Point2 → List Tri)
    (face_oval lips_conns left_eye_conns right_eye_conns : List (ℕ × ℕ)) :
    Except BuildError MeshResult :=
  match landmarks with
  | none => Except.error BuildError.noFaceDetected
  | some xyz =>
    let points2d := projectXY xyz
    let faces := region_filter points2d (delaunay points2d)
      (boundary_polygon points2d face_oval)
    Except.ok
      { base_vertices := normalize_vertices xyz w h
        faces := faces
        uv := uv_map xyz w h
        lips := verts_from_conns lips_conns
        left_eye := verts_from_conns left_eye_conns
        right_eye := verts_from_conns right_eye_conns }

/-! ## Helper lemmas -/

lemma mem_endpoints (v : ℕ) (conns : List (ℕ × ℕ)) :
    v ∈ endpoints conns ↔ ∃ p ∈ conns, v = p.1 ∨ v = p.2 := by
  induction conns with
  | nil => simp [endpoints]
  | cons q l ih =>
    show v ∈ q.1 :: q.2 :: endpoints l ↔ _
    simp only [List.mem_cons, ih]
    constructor
    · rintro (h | h | ⟨p, hp, hv⟩)
      · exact ⟨q, Or.inl rfl, Or.inl h⟩
      · exact ⟨q, Or.inl rfl, Or.inr h⟩
      · exact ⟨p, Or.inr hp, hv⟩
    · rintro ⟨p, (rfl | hp), hv⟩
      · rcases hv with h | h
        · exact Or.inl h
        · exact Or.inr (Or.inl h)
      · exact Or.inr (Or.inr ⟨p, hp, hv⟩)

lemma verts_from_conns_nodup (conns : List (ℕ × ℕ)) :
    (verts_from_conns conns).Nodup :=
  (List.perm_insertionSort _ _).nodup_iff.mpr (List.nodup_dedup _)

lemma mem_verts_from_conns (v : ℕ) (conns : List (ℕ × ℕ)) :
    v ∈ verts_from_conns conns ↔ ∃ p ∈ conns, v = p.1 ∨ v = p.2 := by
  rw [verts_from_conns, (List.perm_insertionSort _ _).mem_iff, List.mem_dedup,
    mem_endpoints]

/-! ## Claim theorems (first group) -/

/-- C1: for every raw triangulation and boundary polygon, the Region
Filter's output is a sublist of the input triangulation — every kept
triangle appears in the input (with its multiplicity and order) and no
triangle is added. -/
theorem region_filter_sublist (points2d : List Point2) (faces : List Tri)
    (poly : List Point2) :
    (region_filter points2d faces poly).Sublist faces :=
  List.filter_sublist faces

/-- C2: when the landmark provider returns no landmarks, the pipeline
returns the named `noFaceDetected` failure, for every image size,
triangulator and topology table — so no geometry step influences the
outcome and no mesh is produced. -/
theorem build_none_fails (w h : ℚ) (delaunay : List Point2 → List Tri)
    (ot lt et rt : List (ℕ × ℕ)) :
    build_mesh_from_photo none w h delaunay ot lt et rt =
      Except.error BuildError.noFaceDetected := rfl

/-- C10: the ray-casting test on an empty polygon returns `false`
(outside) for every query point, and consequently the Region Filter with
an empty boundary polygon removes every triangle, returning normally. -/
theorem inside_polygon_empty_spec :
    (∀ pt : Point2, inside_polygon pt [] = false) ∧
    ∀ (points2d : List Point2) (faces : List Tri),
      region_filter points2d faces [] = [] := by
  refine ⟨fun pt => rfl, fun points2d faces => ?_⟩
  exact List.filter_eq_nil_iff.mpr (fun t _ => by simp [inside_polygon])

/-- C4: the Coordinate Normalizer computes exactly
`((x - W/2)/s, ((H - y) - H/2)/s, (z - m)/s)` per vertex, where `m` is
the median of all landmark z values and `s = max(W, H)/2` — vertical
flip, then centering at `(W/2, H/2, m)`, then uniform scaling. -/
theorem normalize_vertices_closed (xyz : List Point3) (w h : ℚ) :
    normalize_vertices xyz w h =
      xyz.map (fun p =>
        ((p.1 - w / 2) / (max w h / 2),
         (h - p.2.1 - h / 2) / (max w h / 2),
         (p.2.2 - medianQ (xyz.map (fun q => q.2.2))) / (max w h / 2))) := by
  simp only [normalize_vertices, List.map_map]
  rfl

/-- C5: the generated texture coordinate is exactly `(x/W, 1 - y/H)` for
every landmark, and for landmarks inside the image bounds both components
lie in `[0, 1]` (for positive image dimensions). -/
theorem uv_map_spec (xyz : List Point3) (w h : ℚ) (hw : 0 < w) (hh : 0 < h) :
    uv_map xyz w h = xyz.map (fun p => (p.1 / w, 1 - p.2.1 / h)) ∧
    ∀ p ∈ xyz, 0 ≤ p.1 → p.1 ≤ w → 0 ≤ p.2.1 → p.2.1 ≤ h →
      0 ≤ p.1 / w ∧ p.1 / w ≤ 1 ∧ 0 ≤ 1 - p.2.1 / h ∧ 1 - p.2.1 / h ≤ 1 := by
  constructor
  · simp only [uv_map, List.map_map]; rfl
  · intro p _ hx hxw hy hyh
    refine ⟨div_nonneg hx hw.le, (div_le_one hw).2 hxw, ?_, ?_⟩
    · have h1 : p.2.1 / h ≤ 1 := (div_le_one hh).2 hyh
      linarith
    · have h1 : 0 ≤ p.2.1 / h := div_nonneg hy hh.le
      linarith

/-- Witness for C5 at the landmark `(1, 1, 0)` in a 2×2 image. -/
theorem uv_map_spec_w :
    (0:ℚ) < 2 ∧
    (uv_map ([(1, 1, 0)] : List Point3) 2 2 =
        ([(1, 1, 0)] : List Point3).map (fun p => (p.1 / 2, 1 - p.2.1 / 2)) ∧
      ∀ p ∈ ([(1, 1, 0)] : List Point3), 0 ≤ p.1 → p.1 ≤ 2 → 0 ≤ p.2.1 → p.2.1 ≤ 2 →
        0 ≤ p.1 / 2 ∧ p.1 / 2 ≤ 1 ∧ 0 ≤ 1 - p.2.1 / 2 ∧ 1 - p.2.1 / 2 ≤ 1) :=
  ⟨by norm_num, uv_map_spec ([(1, 1, 0)] : List Point3) 2 2 (by norm_num) (by norm_num)⟩

/-- C6: the Feature Index Extractor returns a strictly ascending
(sorted and duplicate-free) list containing exactly the endpoint indices
referenced by the table's edges; in particular a table referencing
`{10, 12, 14, 10, 12}` yields `[10, 12, 14]`. -/
theorem verts_from_conns_spec (conns : List (ℕ × ℕ)) :
    List.Sorted (· < ·) (verts_from_conns conns) ∧
    (∀ v : ℕ, v ∈ verts_from_conns conns ↔ ∃ p ∈ conns, v = p.1 ∨ v = p.2) ∧
    verts_from_conns [(10, 12), (12, 14), (10, 12)] = [10, 12, 14] := by
  refine ⟨?_, fun v => mem_verts_from_conns v conns, by decide⟩
  have hs : List.Sorted (· ≤ ·) (verts_from_conns conns) :=
    List.sorted_insertionSort _ _
  have hn := verts_from_conns_nodup conns
  exact hs.lt_of_le hn

/-! ## C3: reversal machinery -/

lemma foldl_flip_parity (f : ℕ → Bool) (n : ℕ) (b : Bool) :
    (List.range n).foldl (fun acc i => if f i then !acc else acc) b =
      (b != decide ((∑ i ∈ Finset.range n, if f i then 1 else 0) % 2 = 1)) := by
  induction n with
  | zero => simp
  | succ n ih =>
    rw [List.range_succ, List.foldl_append, ih, Finset.sum_range_succ]
    simp only [List.foldl_cons, List.foldl_nil]
    by_cases h : f n
    · simp only [h, if_true]
      rcases Nat.mod_two_eq_zero_or_one
          (∑ i ∈ Finset.range n, if f i then 1 else 0) with h2 | h2
      · have d1 : decide ((∑ i ∈ Finset.range n, if f i then 1 else 0) % 2 = 1)
            = false := decide_eq_false (by omega)
        have d2 : decide (((∑ i ∈ Finset.range n, if f i then 1 else 0) + 1) % 2 = 1)
            = true := decide_eq_true (by omega)
        rw [d1, d2]; cases b <;> rfl
      · have d1 : decide ((∑ i ∈ Finset.range n, if f i then 1 else 0) % 2 = 1)
            = true := decide_eq_true (by omega)
        have d2 : decide (((∑ i ∈ Finset.range n, if f i then 1 else 0) + 1) % 2 = 1)
            = false := decide_eq_false (by omega)
        rw [d1, d2]; cases b <;> rfl
    · simp [h]

lemma inside_polygon_parity (pt : Point2) (poly : List Point2) :
    inside_polygon pt poly =
      decide ((∑ i ∈ Finset.range poly.length,
        if edgeToggle pt (edgeOf poly i) then 1 else 0) % 2 = 1) := by
  rw [inside_polygon, foldl_flip_parity]
  cases h : decide ((∑ i ∈ Finset.range poly.length,
      if edgeToggle pt (edgeOf poly i) then 1 else 0) % 2 = 1) <;> simp [h]

lemma getD_reverse (l : List Point2) (k : ℕ) (hk : k < l.length) (d : Point2) :
    l.reverse.getD k d = l.getD (l.length - 1 - k) d := by
  rw [List.getD_eq_getElem?_getD, List.getD_eq_getElem?_getD,
    List.getElem?_reverse hk]

lemma edgeOf_reverse (poly : List Point2) (j : ℕ) (hj : j < poly.length) :
    edgeOf poly.reverse j =
      Prod.swap (edgeOf poly
        (if j = poly.length - 1 then poly.length - 1 else poly.length - 2 - j)) := by
  have hn : 0 < poly.length := Nat.lt_of_le_of_lt (Nat.zero_le j) hj
  by_cases hj1 : j = poly.length - 1
  · rw [if_pos hj1]
    have h1 : (j + 1) % poly.reverse.length = 0 := by
      rw [List.length_reverse, hj1, Nat.sub_add_cancel hn, Nat.mod_self]
    have h2 : (poly.length - 1 + 1) % poly.length = 0 := by
      rw [Nat.sub_add_cancel hn, Nat.mod_self]
    unfold edgeOf
    rw [h1, h2, Prod.swap_prod_mk]
    rw [getD_reverse _ _ (by omega), getD_reverse _ _ hn]
    have e1 : poly.length - 1 - j = 0 := by omega
    rw [e1, Nat.sub_zero]
  · rw [if_neg hj1]
    have hj2 : j + 1 < poly.length := by omega
    have h1 : (j + 1) % poly.reverse.length = j + 1 := by
      rw [List.length_reverse]; exact Nat.mod_eq_of_lt hj2
    have h2 : (poly.length - 2 - j + 1) % poly.length = poly.length - 1 - j := by
      have e : poly.length - 2 - j + 1 = poly.length - 1 - j := by omega
      rw [e]; exact Nat.mod_eq_of_lt (by omega)
    unfold edgeOf
    rw [h1, h2, Prod.swap_prod_mk]
    rw [getD_reverse _ _ hj, getD_reverse _ _ hj2]
    have e : poly.length - 1 - (j + 1) = poly.length - 2 - j := by omega
    rw [e]

/-- C3 amended: point-in-polygon classification is unchanged under
reversing the polygon's point order, provided the ray-casting toggle of
every polygon edge evaluates identically on the edge and on its
endpoint-swapped form. Reversing the polygon turns each traversed edge
`(p_i, p_{i+1})` into `(p_{i+1}, p_i)`, and the `1e-9` bias added to the
denominator `y2 - y1` makes the computed crossing abscissa of an edge
differ by `O(eps)` from that of its swap, so the proviso excludes exactly
the query points falling inside that epsilon-wide band (it holds for all
other points); without it the claim is false, see the counterexample. -/
theorem inside_polygon_reverse (pt : Point2) (poly : List Point2)
    (h : ∀ i < poly.length,
      edgeToggle pt (Prod.swap (edgeOf poly i)) = edgeToggle pt (edgeOf poly i)) :
    inside_polygon pt poly.reverse = inside_polygon pt poly := by
  rw [inside_polygon_parity, inside_polygon_parity, List.length_reverse]
  suffices hs : (∑ j ∈ Finset.range poly.length,
        if edgeToggle pt (edgeOf poly.reverse j) then 1 else 0) =
      (∑ i ∈ Finset.range poly.length,
        if edgeToggle pt (edgeOf poly i) then 1 else 0) by rw [hs]
  refine Finset.sum_nbij'
    (fun j => if j = poly.length - 1 then poly.length - 1 else poly.length - 2 - j)
    (fun i => if i = poly.length - 1 then poly.length - 1 else poly.length - 2 - i)
    ?_ ?_ ?_ ?_ ?_
  · intro a ha
    simp only [Finset.mem_range] at ha ⊢
    split_ifs <;> omega
  · intro a ha
    simp only [Finset.mem_range] at ha ⊢
    split_ifs <;> omega
  · intro a ha
    simp only [Finset.mem_range] at ha
    dsimp only
    split_ifs <;> omega
  · intro a ha
    simp only [Finset.mem_range] at ha
    dsimp only
    split_ifs <;> omega
  · intro a ha
    simp only [Finset.mem_range] at ha
    rw [edgeOf_reverse poly a ha, h _ (by split_ifs <;> omega)]

/-- C3 counterexample: for the triangle `(0,0), (4,0), (0,4)` and the
query point `(3 + eps/2, 1)`, the ray-casting test classifies the point
as outside for the original order and inside for the reversed order. At
height `y = 1` the hypotenuse traversed forwards crosses at
`3 + eps/4 + O(eps^2)` and traversed backwards at `3 + 3*eps/4 +
O(eps^2)`, and the query abscissa `3 + eps/2` sits strictly between the
two; the first-order gap of `eps/2` between the crossings is far above
double-precision resolution near 3, so the classification split is also
exhibited by the floating-point source at this very input. -/
theorem inside_polygon_reverse_cx :
    inside_polygon ((3 + 1 / 2000000000 : ℚ), 1)
        ([(0, 0), (4, 0), (0, 4)] : List Point2).reverse ≠
      inside_polygon ((3 + 1 / 2000000000 : ℚ), 1)
        ([(0, 0), (4, 0), (0, 4)] : List Point2) := by
  have h1 : inside_polygon ((3 + 1 / 2000000000 : ℚ), 1)
      ([(0, 0), (4, 0), (0, 4)] : List Point2).reverse = true := by
    simp [inside_polygon, edgeOf, edgeToggle, epsQ, List.range_succ]
    norm_num
  have h2 : inside_polygon ((3 + 1 / 2000000000 : ℚ), 1)
      ([(0, 0), (4, 0), (0, 4)] : List Point2) = false := by
    simp [inside_polygon, edgeOf, edgeToggle, epsQ, List.range_succ]
    norm_num
  rw [h1, h2]; simp

/-- Witness for the amended C3: the unit-square boundary and the interior
point `(1, 1)`, for which every edge toggle is swap-invariant. -/
theorem inside_polygon_reverse_w :
    inside_polygon ((1 : ℚ), 1) ([(0, 0), (2, 0), (2, 2), (0, 2)] : List Point2).reverse =
      inside_polygon ((1 : ℚ), 1) ([(0, 0), (2, 0), (2, 2), (0, 2)] : List Point2) :=
  inside_polygon_reverse ((1 : ℚ), 1) ([(0, 0), (2, 0), (2, 2), (0, 2)] : List Point2)
    (by
      intro i hi
      simp only [List.length_cons, List.length_nil] at hi
      interval_cases i <;>
        · simp [edgeOf, edgeToggle, epsQ, Prod.swap]
          try norm_num)

/-! ## C7 / C8 -/

/-- C7 counterexample: with a triangulator producing one triangle and an
empty face-oval table, the Region Filter removes every triangle, yet the
pipeline returns a successful mesh whose face list is empty — no
`EmptyTriangulation` (or any) failure is raised. -/
theorem build_empty_filter_cx :
    ([((0:ℕ), (1:ℕ), (2:ℕ))] : List Tri) ≠ [] ∧
    ∃ r : MeshResult,
      build_mesh_from_photo (some ([(0, 0, 0), (4, 0, 0), (0, 4, 0)] : List Point3))
          10 10 (fun _ => [(0, 1, 2)]) [] [] [] [] = Except.ok r ∧
      r.faces = [] := by
  refine ⟨by simp, ⟨_, rfl, ?_⟩⟩
  rfl

/-- C7 amended: when the Region Filter removes every triangle, the
pipeline does not raise a failure; it proceeds to assemble and return a
mesh whose face list is empty. -/
theorem build_empty_filter_ok (xyz : List Point3) (w h : ℚ)
    (delaunay : List Point2 → List Tri) (ot lt et rt : List (ℕ × ℕ))
    (hf : region_filter (projectXY xyz) (delaunay (projectXY xyz))
        (boundary_polygon (projectXY xyz) ot) = []) :
    ∃ r : MeshResult,
      build_mesh_from_photo (some xyz) w h delaunay ot lt et rt = Except.ok r ∧
      r.faces = [] :=
  ⟨_, rfl, hf⟩

/-- Witness for the amended C7 on a concrete three-landmark photo with an
empty face-oval table. -/
theorem build_empty_filter_ok_w :
    region_filter (projectXY ([(0, 0, 0), (4, 0, 0), (0, 4, 0)] : List Point3))
        ((fun _ => [((0:ℕ), (1:ℕ), (2:ℕ))])
          (projectXY ([(0, 0, 0), (4, 0, 0), (0, 4, 0)] : List Point3)))
        (boundary_polygon (projectXY ([(0, 0, 0), (4, 0, 0), (0, 4, 0)] : List Point3)) [])
      = [] ∧
    ∃ r : MeshResult,
      build_mesh_from_photo (some ([(0, 0, 0), (4, 0, 0), (0, 4, 0)] : List Point3))
          10 10 (fun _ => [((0:ℕ), (1:ℕ), (2:ℕ))]) [] [] [] [] = Except.ok r ∧
      r.faces = [] :=
  ⟨by rfl, build_empty_filter_ok ([(0, 0, 0), (4, 0, 0), (0, 4, 0)] : List Point3) 10 10
    (fun _ => [((0:ℕ), (1:ℕ), (2:ℕ))]) [] [] [] [] (by rfl)⟩

/-- C8 counterexample: a face-oval table whose polygon has exactly two
distinct points (fewer than 3) does not abort the pipeline — the build
still returns a mesh, so no `DegenerateBoundary` failure exists. -/
theorem build_degenerate_boundary_cx :
    (polygon_from_connections [((0:ℕ), (1:ℕ))]).length = 2 ∧
    ∃ r : MeshResult,
      build_mesh_from_photo (some ([(0, 0, 0), (4, 0, 0), (0, 4, 0)] : List Point3))
          10 10 (fun _ => [(0, 1, 2)]) [(0, 1)] [] [] [] = Except.ok r :=
  ⟨by decide, ⟨_, rfl⟩⟩

/-- C8 amended: the pipeline performs no degenerate-boundary check; even
when the boundary polygon has fewer than 3 distinct points it proceeds,
filtering the triangulation against the degenerate polygon, and returns
a mesh. -/
theorem build_degenerate_boundary_ok (xyz : List Point3) (w h : ℚ)
    (delaunay : List Point2 → List Tri) (ot lt et rt : List (ℕ × ℕ))
    (hdeg : (polygon_from_connections ot).length < 3) :
    ∃ r : MeshResult,
      build_mesh_from_photo (some xyz) w h delaunay ot lt et rt = Except.ok r ∧
      r.faces = region_filter (projectXY xyz) (delaunay (projectXY xyz))
        (boundary_polygon (projectXY xyz) ot) :=
  ⟨_, rfl, rfl⟩

/-- Witness for the amended C8 with the two-point face-oval table
`[(0, 1)]`. -/
theorem build_degenerate_boundary_ok_w :
    (polygon_from_connections [((0:ℕ), (1:ℕ))]).length < 3 ∧
    ∃ r : MeshResult,
      build_mesh_from_photo (some ([(0, 0, 0), (4, 0, 0), (0, 4, 0)] : List Point3))
          10 10 (fun _ => [((0:ℕ), (1:ℕ), (2:ℕ))]) [(0, 1)] [] [] [] = Except.ok r ∧
      r.faces = region_filter (projectXY ([(0, 0, 0), (4, 0, 0), (0, 4, 0)] : List Point3))
        ((fun _ => [((0:ℕ), (1:ℕ), (2:ℕ))])
          (projectXY ([(0, 0, 0), (4, 0, 0), (0, 4, 0)] : List Point3)))
        (boundary_polygon (projectXY ([(0, 0, 0), (4, 0, 0), (0, 4, 0)] : List Point3))
          [(0, 1)]) :=
  ⟨by decide, build_degenerate_boundary_ok ([(0, 0, 0), (4, 0, 0), (0, 4, 0)] : List Point3)
    10 10 (fun _ => [((0:ℕ), (1:ℕ), (2:ℕ))]) [(0, 1)] [] [] [] (by decide)⟩

/-! ## C9 machinery -/

lemma angBand_lt_four (p : Point2) : angBand p < 4 := by
  unfold angBand; split_ifs <;> omega

lemma angBand_cases (p : Point2) :
    (angBand p = 0 ∧ p.2 < 0) ∨ (angBand p = 1 ∧ p.2 = 0 ∧ 0 ≤ p.1) ∨
    (angBand p = 2 ∧ 0 < p.2) ∨ (angBand p = 3 ∧ p.2 = 0 ∧ p.1 < 0) := by
  unfold angBand
  split_ifs with h1 h2 h3
  · exact Or.inl ⟨rfl, h1⟩
  · exact Or.inr (Or.inl ⟨rfl, h2⟩)
  · exact Or.inr (Or.inr (Or.inl ⟨rfl, h3⟩))
  · refine Or.inr (Or.inr (Or.inr ⟨rfl, ?_⟩))
    have hy : p.2 = 0 := le_antisymm (not_lt.1 h3) (not_lt.1 h1)
    refine ⟨hy, ?_⟩
    by_contra hx
    exact h2 ⟨hy, not_lt.1 hx⟩

lemma angBand_zero (p : Point2) (h : angBand p = 0) : p.2 < 0 := by
  rcases angBand_cases p with ⟨_, hy⟩ | ⟨hb, _⟩ | ⟨hb, _⟩ | ⟨hb, _⟩
  · exact hy
  all_goals omega

lemma angBand_one (p : Point2) (h : angBand p = 1) : p.2 = 0 ∧ 0 ≤ p.1 := by
  rcases angBand_cases p with ⟨hb, _⟩ | ⟨_, hy⟩ | ⟨hb, _⟩ | ⟨hb, _⟩
  · omega
  · exact hy
  all_goals omega

lemma angBand_two (p : Point2) (h : angBand p = 2) : 0 < p.2 := by
  rcases angBand_cases p with ⟨hb, _⟩ | ⟨hb, _⟩ | ⟨_, hy⟩ | ⟨hb, _⟩
  · omega
  · omega
  · exact hy
  · omega

lemma angBand_three (p : Point2) (h : angBand p = 3) : p.2 = 0 ∧ p.1 < 0 := by
  rcases angBand_cases p with ⟨hb, _⟩ | ⟨hb, _⟩ | ⟨hb, _⟩ | ⟨_, hy⟩
  · omega
  · omega
  · omega
  · exact hy

lemma crossQ_trans_pos (p q r : Point2) (hp : 0 < p.2) (hq : 0 < q.2) (hr : 0 < r.2)
    (h1 : 0 ≤ crossQ p q) (h2 : 0 ≤ crossQ q r) : 0 ≤ crossQ p r := by
  unfold crossQ at h1 h2 ⊢
  nlinarith [mul_nonneg h1 hr.le, mul_nonneg h2 hp.le]

lemma crossQ_trans_neg (p q r : Point2) (hp : p.2 < 0) (hq : q.2 < 0) (hr : r.2 < 0)
    (h1 : 0 ≤ crossQ p q) (h2 : 0 ≤ crossQ q r) : 0 ≤ crossQ p r := by
  unfold crossQ at h1 h2 ⊢
  nlinarith [mul_nonneg h1 (by linarith : (0:ℚ) ≤ -r.2),
    mul_nonneg h2 (by linarith : (0:ℚ) ≤ -p.2)]

instance angleLE_isTotal (c : Point2) : IsTotal Point2 (angleLE c) := by
  refine ⟨fun p q => ?_⟩
  unfold angleLE
  rcases lt_trichotomy (angBand (p.1 - c.1, p.2 - c.2)) (angBand (q.1 - c.1, q.2 - c.2))
    with h | h | h
  · exact Or.inl (Or.inl h)
  · rcases le_total 0 (crossQ (p.1 - c.1, p.2 - c.2) (q.1 - c.1, q.2 - c.2)) with hc | hc
    · exact Or.inl (Or.inr ⟨h, hc⟩)
    · refine Or.inr (Or.inr ⟨h.symm, ?_⟩)
      unfold crossQ at hc ⊢
      linarith
  · exact Or.inr (Or.inl h)

instance angleLE_isTrans (c : Point2) : IsTrans Point2 (angleLE c) := by
  refine ⟨fun p q r hpq hqr => ?_⟩
  rcases hpq with h1 | ⟨h1, hc1⟩
  · rcases hqr with h2 | ⟨h2, hc2⟩
    · exact Or.inl (h1.trans h2)
    · exact Or.inl (h2 ▸ h1)
  · rcases hqr with h2 | ⟨h2, hc2⟩
    · exact Or.inl (h1 ▸ h2)
    · refine Or.inr ⟨h1.trans h2, ?_⟩
      have hY : angBand (q.1 - c.1, q.2 - c.2) = angBand (p.1 - c.1, p.2 - c.2) := h1.symm
      have hZ : angBand (r.1 - c.1, r.2 - c.2) = angBand (p.1 - c.1, p.2 - c.2) :=
        (h1.trans h2).symm
      have h0 := angBand_lt_four (p.1 - c.1, p.2 - c.2)
      have hcases : angBand (p.1 - c.1, p.2 - c.2) = 0 ∨
          angBand (p.1 - c.1, p.2 - c.2) = 1 ∨
          angBand (p.1 - c.1, p.2 - c.2) = 2 ∨
          angBand (p.1 - c.1, p.2 - c.2) = 3 := by omega
      rcases hcases with h | h | h | h
      · exact crossQ_trans_neg _ _ _ (angBand_zero _ h) (angBand_zero _ (hY.trans h))
          (angBand_zero _ (hZ.trans h)) hc1 hc2
      · have dX := angBand_one _ h
        have dZ := angBand_one _ (hZ.trans h)
        unfold crossQ
        rw [dX.1, dZ.1]
        ring_nf
        exact le_refl 0
      · exact crossQ_trans_pos _ _ _ (angBand_two _ h) (angBand_two _ (hY.trans h))
          (angBand_two _ (hZ.trans h)) hc1 hc2
      · have dX := angBand_three _ h
        have dZ := angBand_three _ (hZ.trans h)
        unfold crossQ
        rw [dX.1, dZ.1]
        ring_nf
        exact le_refl 0

/-- C9: the Boundary Polygon Builder outputs a point sequence whose
length equals the number of unique vertex indices referenced by the
table's edges, ordered by ascending polar angle around the arithmetic
mean (centroid) of those points. -/
theorem boundary_polygon_spec (points2d : List Point2) (conns : List (ℕ × ℕ)) :
    (boundary_polygon points2d conns).length = (endpoints conns).toFinset.card ∧
    List.Sorted
      (angleLE (centroid2 ((polygon_from_connections conns).map
        (fun i => points2d.getD i (0, 0)))))
      (boundary_polygon points2d conns) := by
  constructor
  · rw [boundary_polygon]
    rw [(List.perm_insertionSort _ _).length_eq, List.length_map,
      polygon_from_connections, (List.perm_insertionSort _ _).length_eq,
      List.card_toFinset]
  · exact List.sorted_insertionSort _ _
